import Mathlib

/-!
# Verification of the Nebula media server against its specification

Shallow embedding of the parts of `server/backend/app` that the checked
claims are about:

* `api/stream.py` (`stream_file`): range parsing, 416/206/200 responses,
  quality-variant resolution with fallback;
* `api/transcode.py` (`trigger_transcode`, `cancel_job`): job creation with
  duplicate filtering, job cancellation;
* `worker.py` (`transcode_video_task`): the initial load-and-transition
  phase of the worker task;
* `services/file_service.py` (`upload_file`, `delete_file`): orphan cleanup
  on failed catalog insert, deletion scope.

Modelling conventions:
* The SQL database is a `Catalog` value (lists of `FileRec` and `Job` rows
  plus autoincrement counters); queries and commits become pure functions.
* The MinIO object store is a `Store`: an association list from object key
  to object bytes (bytes as `List Nat`).  `stat` misses are `none`.
* Python strings are handled through `List Char` so that every string
  operation is a structurally recursive, kernel-reducible function.
* Wall-clock times (`datetime.utcnow()`) are passed in as a `Nat` tick.
* Celery task ids are modelled deterministically from the job id.
* The body of a `StreamingResponse` is modelled as the byte sequence the
  underlying generator would yield; a generator that would raise on its
  first pull (missing object, negative length) contributes no bytes.
-/

/-- A row of the `files` table (`models/file.py`).  `transcoded_variants`
is the JSON object mapping quality keys (`"480"` …) to object keys; the
Python `None`/`{}` (both falsy) are modelled as the empty list.  Fields not
referenced by any claim (`video_metadata`, `tags`, `user_id`,
`upload_date`) are omitted. -/
structure FileRec where
  id : Nat
  filename : String
  filePath : String
  size : Nat
  mimeType : String
  fileHash : Option String := none
  description : Option String := none
  transcodedVariants : List (String × String) := []
deriving Repr, DecidableEq

/-- A row of the `transcoding_jobs` table (`models/job.py`).  `progress`
is a percentage; the claims never touch its fractional part, so it is a
`Nat`. -/
structure Job where
  id : Nat
  fileId : Nat
  targetQuality : Nat
  status : String
  progress : Nat := 0
  outputPath : Option String := none
  errorMessage : Option String := none
  celeryTaskId : Option String := none
  startedAt : Option Nat := none
  completedAt : Option Nat := none
deriving Repr, DecidableEq

/-- The relational database: both tables plus the autoincrement counters
that SQLAlchemy's `db.add`/`commit`/`refresh` would consume. -/
structure Catalog where
  files : List FileRec
  jobs : List Job
  nextFileId : Nat
  nextJobId : Nat
deriving Repr, DecidableEq

/-- The object store: association list from object key to object bytes.
Models the MinIO bucket behind `core/s3_client.py`. -/
abbrev Store := List (String × List Nat)

/-- `minio_client.get_file_info(key)["size"]` / `stat_object`: `none` when
the object is absent (`S3Error` caught, `None` returned). -/
def Store.stat (store : Store) (key : String) : Option Nat :=
  (store.lookup key).map List.length

/-- The full byte content of an object, `none` when absent. -/
def Store.getBytes (store : Store) (key : String) : Option (List Nat) :=
  store.lookup key

/-- `minio_client.delete_file` / `remove_object`: removing an absent key is
a no-op. -/
def Store.erase (store : Store) (key : String) : Store :=
  store.filter (fun kv => kv.1 != key)

/-- `minio_client.put_object`: stores (or overwrites) the object. -/
def Store.put (store : Store) (key : String) (content : List Nat) : Store :=
  (key, content) :: store.erase key

/-! ## Range header parsing (`api/stream.py`, lines 112-121) -/

/-- `range_header.replace("bytes=", "")`: removes every (non-overlapping,
left-to-right) occurrence of `bytes=`, as Python `str.replace` does. -/
def stripBytesMarker : List Char → List Char
  | 'b' :: 'y' :: 't' :: 'e' :: 's' :: '=' :: rest => stripBytesMarker rest
  | c :: rest => c :: stripBytesMarker rest
  | [] => []

/-- Python `s.split("-")`: always at least one piece; adjacent separators
yield empty pieces. -/
def splitOnDash : List Char → List (List Char)
  | [] => [[]]
  | '-' :: rest => [] :: splitOnDash rest
  | c :: rest =>
    match splitOnDash rest with
    | [] => [[c]]
    | p :: ps => (c :: p) :: ps

/-- Decimal value of a digit string. -/
def digitsVal (ds : List Char) : Nat :=
  ds.foldl (fun n c => n * 10 + (c.toNat - '0'.toNat)) 0

/-- Python `int(s)` on a stripped sign/digit core: `none` models
`ValueError`.  Python accepts surrounding whitespace and a single leading
sign; everything else must be a digit. -/
def pyIntCore (cs : List Char) : Option Int :=
  if (!cs.isEmpty) && cs.all Char.isDigit then some (digitsVal cs) else none

/-- Python `int(s)` for the strings reachable from the range parser. -/
def pyInt (cs : List Char) : Option Int :=
  let t := ((cs.dropWhile Char.isWhitespace).reverse.dropWhile Char.isWhitespace).reverse
  match t with
  | '-' :: ds => (pyIntCore ds).map (fun n => -n)
  | '+' :: ds => pyIntCore ds
  | ds => pyIntCore ds

/-- The header parse of `stream_file` (lines 112-121): strip `bytes=`,
split on `-`; an empty start means `0`, an empty end means `size-1` (an
`Int`, since Python computes `file_size - 1` which is `-1` on an empty
object); a whole-string parse without `-` takes the rest of the file.
`none` models the `ValueError` caught at line 157. -/
def parseRange (rangeHeader : String) (fileSize : Nat) : Option (Int × Int) :=
  let rangeSpec := stripBytesMarker rangeHeader.data
  if rangeSpec.contains '-' then
    match splitOnDash rangeSpec with
    | p0 :: p1 :: _ =>
      let start? := if p0.isEmpty then some (0 : Int) else pyInt p0
      let end? := if p1.isEmpty then some ((fileSize : Int) - 1) else pyInt p1
      match start?, end? with
      | some s, some e => some (s, e)
      | _, _ => none
    | _ => none
  else
    (pyInt rangeSpec).map (fun s => (s, (fileSize : Int) - 1))

/-- Line 131-132: `if end >= file_size: end = file_size - 1`. -/
def clampEnd (e : Int) (fileSize : Nat) : Int :=
  if e ≥ (fileSize : Int) then (fileSize : Int) - 1 else e

/-! ## The streaming endpoint (`api/stream.py`, `stream_file`) -/

/-- Responses of `stream_file`, by status code, carrying exactly the
headers the handler sets.  `badRequest` is the `Validation`/400 shape of
the API's error taxonomy; the range path of `stream_file` never produces
it (claim C3). -/
inductive StreamResp where
  | notFound
  | badRequest (detail : String)
  | status416 (contentRange : String)
  | status206 (contentRange : String) (contentLength : Int)
      (acceptRanges : String) (body : List Nat)
  | status200 (contentLength : Nat) (acceptRanges : String) (body : List Nat)
deriving Repr, DecidableEq

/-- Lines 85-103: pick the object to stream.  With a (truthy) `quality`
and truthy `transcoded_variants`, use the variant's key and its
stat-derived size when the stat succeeds; otherwise fall back to the
original key and the recorded size. -/
def resolveStream (file : FileRec) (quality : Option Nat) (store : Store) :
    String × Nat :=
  match quality with
  | some q =>
    if q != 0 && !file.transcodedVariants.isEmpty then
      match file.transcodedVariants.lookup (toString q) with
      | some vpath =>
        match store.stat vpath with
        | some sz => (vpath, sz)
        | none => (file.filePath, file.size)
      | none => (file.filePath, file.size)
    else (file.filePath, file.size)
  | none => (file.filePath, file.size)

/-- `stream_file` (lines 78-173).  The 404 branch is `notFound`; a parsed
range with `start ≥ size` is 416 with `Content-Range: bytes */size`; a
satisfiable range is 206 with the clamped end, `Content-Length
end-start+1` and the ranged body; a missing range header or a
`ValueError` during parsing falls through to the full-file 200 response. -/
def streamFile (db : List FileRec) (store : Store) (fileId : Nat)
    (quality : Option Nat) (rangeHeader : Option String) : StreamResp :=
  match db.find? (fun f => f.id == fileId) with
  | none => .notFound
  | some file =>
    let sp := resolveStream file quality store
    let streamPath := sp.1
    let fileSize := sp.2
    let fullBody := (store.getBytes streamPath).getD []
    match rangeHeader with
    | none => .status200 fileSize "bytes" fullBody
    | some hdr =>
      match parseRange hdr fileSize with
      | none => .status200 fileSize "bytes" fullBody
      | some se =>
        if se.1 ≥ (fileSize : Int) then
          .status416 ("bytes */" ++ toString fileSize)
        else
          let e := clampEnd se.2 fileSize
          let len := e - se.1 + 1
          .status206
            ("bytes " ++ toString se.1 ++ "-" ++ toString e ++ "/" ++
              toString fileSize)
            len "bytes"
            ((((store.getBytes streamPath).getD []).drop se.1.toNat).take len.toNat)

/-! ## The transcode trigger (`api/transcode.py`, `trigger_transcode`) -/

/-- `valid_qualities` (line 70). -/
def validQualities : List Nat := [480, 720, 1080]

/-- `status in ["pending", "processing"]` (lines 80-82): active job. -/
def isActiveStatus (s : String) : Bool :=
  s == "pending" || s == "processing"

/-- The qualities of the file's currently active jobs
(`existing_qualities`, lines 79-84).  The Python set comprehension is
modelled as the list of qualities; only membership and enumeration are
used. -/
def activeQualities (jobs : List Job) (fileId : Nat) : List Nat :=
  (jobs.filter (fun j => j.fileId == fileId && isActiveStatus j.status)).map
    (fun j => j.targetQuality)

/-- Celery task ids (`task.id`) modelled deterministically from the job
id. -/
def taskIdFor (jobId : Nat) : String :=
  "task-" ++ toString jobId

/-- Lines 89-95: a quality is created unless it is already active
(`quality in existing_qualities`) or the file has a truthy
`transcoded_variants` containing its key. -/
def passesCreateFilter (file : FileRec) (existing : List Nat) (q : Nat) : Bool :=
  !(existing.contains q) &&
    !(!file.transcodedVariants.isEmpty &&
      (file.transcodedVariants.lookup (toString q)).isSome)

/-- The job row inserted at lines 98-117: status `pending`, progress 0,
with the Celery task id stored after the task is queued. -/
def mkJob (fileId jobId q : Nat) : Job :=
  { id := jobId, fileId := fileId, targetQuality := q, status := "pending",
    progress := 0, celeryTaskId := some (taskIdFor jobId) }

/-- Entry of the `created_jobs` response list (lines 119-124). -/
structure CreatedEntry where
  jobId : Nat
  quality : Nat
  status : String
  celeryTaskId : String
deriving Repr, DecidableEq

/-- Responses of `trigger_transcode`.  `noJobs` is the aggregate object of
lines 126-133 (`message`, `reason`, `file_id`, `existing_qualities`,
`transcoded_qualities`); `started` is the object of lines 135-139
(`message`, `file_id`, `jobs`). -/
inductive TranscodeResp where
  | notFound (detail : String)
  | badRequest (detail : String)
  | noJobs (fileId : Nat) (existingQualities : List Nat)
      (transcodedQualities : List String)
  | started (fileId : Nat) (jobs : List CreatedEntry)
deriving Repr, DecidableEq

/-- The `for quality in request.qualities` loop (lines 88-124), with the
database session threaded through.  `existing` is fixed before the loop,
exactly as in the source. -/
def createJobsLoop (file : FileRec) (fileId : Nat) (existing : List Nat)
    (c : Catalog) (created : List CreatedEntry) :
    List Nat → Catalog × List CreatedEntry
  | [] => (c, created)
  | q :: qs =>
    if passesCreateFilter file existing q then
      let jid := c.nextJobId
      createJobsLoop file fileId existing
        { c with jobs := c.jobs ++ [mkJob fileId jid q], nextJobId := jid + 1 }
        (created ++ [⟨jid, q, "queued", taskIdFor jid⟩]) qs
    else
      createJobsLoop file fileId existing c created qs

/-- `is_video` (`models/file.py`): the MIME type starts with `video/`. -/
def isVideo (f : FileRec) : Bool :=
  "video/".data.isPrefixOf f.mimeType.data

/-- `trigger_transcode` (lines 49-139): 404 for an unknown file, 400 for a
non-video file or an unrecognized quality, otherwise the creation loop
followed by either the aggregate no-new-jobs object or the created-jobs
object. -/
def trigger_transcode (cat : Catalog) (fileId : Nat) (qualities : List Nat) :
    Catalog × TranscodeResp :=
  match cat.files.find? (fun f => f.id == fileId) with
  | none => (cat, .notFound "File not found")
  | some file =>
    if !(isVideo file) then
      (cat, .badRequest "File is not a video")
    else
      match qualities.find? (fun q => !(validQualities.contains q)) with
      | some _ => (cat, .badRequest "Invalid quality")
      | none =>
        let existing := activeQualities cat.jobs fileId
        let r := createJobsLoop file fileId existing cat [] qualities
        if r.2.isEmpty then
          (r.1, .noJobs fileId existing
            (file.transcodedVariants.map (fun kv => kv.1)))
        else
          (r.1, .started fileId r.2)

/-! ## Job cancellation (`api/transcode.py`, `cancel_job`) -/

/-- Line 263: the statuses `cancel_job` rejects with 400.  Note
`"cancelled"` is not among them. -/
def isRejectedForCancel (s : String) : Bool :=
  s == "completed" || s == "failed"

/-- Responses of `cancel_job`. -/
inductive CancelResp where
  | notFound (detail : String)
  | badRequest (detail : String)
  | ok (jobId : Nat)
deriving Repr, DecidableEq

/-- The field patch of lines 274-276. -/
def cancelPatch (j : Job) (now : Nat) : Job :=
  { j with status := "cancelled", errorMessage := some "Cancelled by user",
           completedAt := some now }

/-- `cancel_job` (lines 254-279): 404 for an unknown job; 400 only for
`completed`/`failed`; every other status (including `cancelled`) is
patched to `cancelled` with `completed_at = now` and answered 200.  The
Celery revoke is a side effect outside the modelled state. -/
def cancel_job (cat : Catalog) (jobId : Nat) (now : Nat) :
    Catalog × CancelResp :=
  match cat.jobs.find? (fun j => j.id == jobId) with
  | none => (cat, .notFound "Job not found")
  | some job =>
    if isRejectedForCancel job.status then
      (cat, .badRequest "Cannot cancel job")
    else
      ({ cat with jobs := cat.jobs.map (fun j =>
          if j.id == jobId then cancelPatch j now else j) },
       .ok jobId)

/-! ## The worker's initial phase (`worker.py`, lines 52-66) -/

/-- The field patch of lines 61-63: unconditionally `processing`. -/
def processingPatch (j : Job) (taskId : String) (now : Nat) : Job :=
  { j with status := "processing", startedAt := some now,
           celeryTaskId := some taskId }

/-- The field patch of the exception handler (lines 147-152). -/
def failedPatch (j : Job) (msg : String) (now : Nat) : Job :=
  { j with status := "failed", errorMessage := some msg,
           completedAt := some now }

/-- `transcode_video_task`, lines 52-66 plus the exception handler of
lines 142-156 for the load-failure case: load job and file; if either is
missing, the raised `ValueError` marks the job (when present) `failed`;
otherwise the job is set to `processing` with `started_at` and the task
id recorded — with no check that the job is still non-terminal and no
compare-and-set on the previous status.  Returns `true` when the worker
proceeds to transcoding. -/
def transcode_video_task_begin (cat : Catalog) (jobId fileId : Nat)
    (taskId : String) (now : Nat) : Catalog × Bool :=
  match cat.jobs.find? (fun j => j.id == jobId),
        cat.files.find? (fun f => f.id == fileId) with
  | some _, some _ =>
    ({ cat with jobs := cat.jobs.map (fun j =>
        if j.id == jobId then processingPatch j taskId now else j) },
     true)
  | some _, none =>
    ({ cat with jobs := cat.jobs.map (fun j =>
        if j.id == jobId then failedPatch j "Job or File not found" now else j) },
     false)
  | none, _ => (cat, false)

/-! ## File service (`services/file_service.py`) -/

/-- `upload_file` (lines 61-154).  The object-store PUT and the catalog
insert can each fail in the environment; these outcomes are injected as
the booleans `putFails` and `dbFails`.  On PUT failure the function raises
before touching the catalog.  On insert failure after a successful PUT,
the stored object is deleted (best-effort, modelled as succeeding) and the
error is re-raised.  On success a `File` row is appended. -/
def upload_file (cat : Catalog) (store : Store) (s3Key : String)
    (content : List Nat) (filename mimeType : String)
    (fileHash : Option String) (putFails dbFails : Bool) :
    Catalog × Store × Except String Nat :=
  if putFails then
    (cat, store, .error "Failed to upload file to storage")
  else
    let store1 := store.put s3Key content
    if dbFails then
      (cat, store1.erase s3Key, .error "Failed to save file metadata")
    else
      let f : FileRec :=
        { id := cat.nextFileId, filename := filename, filePath := s3Key,
          size := content.length, mimeType := mimeType, fileHash := fileHash }
      ({ cat with files := cat.files ++ [f], nextFileId := cat.nextFileId + 1 },
       store1, .ok f.id)

/-- `delete_file` (lines 180-209): look up the row; delete the original
object from the store (errors ignored); then delete the row and commit.
`transcoding_jobs.file_id` is a non-nullable foreign key to `files.id`
with no `ondelete` and no delete cascade on the `lazy="dynamic"`
relationship (`models/job.py`, `models/file.py`, and the migration), so
whenever any job row references the file the commit raises (NOT NULL or
foreign-key violation); the exception is caught, the transaction rolls
back — the `files` row and every job survive unchanged — and `False` is
returned, with the original object already gone from the store.  With no
referencing job rows the commit succeeds and exactly the `files` row is
removed: no variant object is deleted either way. -/
def delete_file (cat : Catalog) (store : Store) (fileId : Nat) :
    Catalog × Store × Bool :=
  match cat.files.find? (fun f => f.id == fileId) with
  | none => (cat, store, false)
  | some f =>
    let store1 := store.erase f.filePath
    if cat.jobs.any (fun j => j.fileId == fileId) then
      (cat, store1, false)
    else
      ({ cat with files := cat.files.filter (fun g => g.id != fileId) },
       store1, true)

/-! ## Claims about the streaming endpoint -/

/-- C1: for a file of size `N`, a stream request whose Range header parses
to a start offset `s ≥ N` is answered 416 with header
`Content-Range: bytes */N`. -/
theorem stream_range_not_satisfiable_416 (db : List FileRec) (store : Store)
    (fid : Nat) (f : FileRec) (hdr : String) (s e : Int)
    (hfind : db.find? (fun x => x.id == fid) = some f)
    (hp : parseRange hdr f.size = some (s, e))
    (hs : (f.size : Int) ≤ s) :
    streamFile db store fid none (some hdr) =
      .status416 ("bytes */" ++ toString f.size) := by
  unfold streamFile
  rw [hfind]
  simp only [resolveStream, hp]
  rw [if_pos hs]

/-- Closed instance of C1: the spec's own example, a 1000-byte file with
`Range: bytes=1000-2000`. -/
theorem stream_range_not_satisfiable_416_witness :
    parseRange "bytes=1000-2000" 1000 = some (1000, 2000) ∧
    (1000 : Int) ≤ 1000 ∧
    streamFile
      [{ id := 1, filename := "a.bin", filePath := "uploads/a.bin",
         size := 1000, mimeType := "application/octet-stream" }]
      [] 1 none (some "bytes=1000-2000") = .status416 "bytes */1000" := by
  refine ⟨by decide, by decide, ?_⟩
  exact stream_range_not_satisfiable_416 _ _ 1
    { id := 1, filename := "a.bin", filePath := "uploads/a.bin",
      size := 1000, mimeType := "application/octet-stream" }
    "bytes=1000-2000" 1000 2000 (by decide) (by decide) (by decide)

/-- C2: a Range header that parses with `start < N` is answered 206 with
the end clamped to `N-1`, `Content-Range: bytes start-end/N`,
`Content-Length = end-start+1`, `Accept-Ranges: bytes`, and exactly the
bytes `start..end` of the object; moreover a missing start parses to 0
and a missing end parses to `N-1` (shown on the concrete headers
`bytes=-5` and `bytes=5-` against a 10-byte object). -/
theorem stream_range_206 (db : List FileRec) (store : Store)
    (fid : Nat) (f : FileRec) (hdr : String) (s e : Int) (body : List Nat)
    (hfind : db.find? (fun x => x.id == fid) = some f)
    (hp : parseRange hdr f.size = some (s, e))
    (hs : s < (f.size : Int))
    (hb : store.getBytes f.filePath = some body) :
    streamFile db store fid none (some hdr) =
      .status206
        ("bytes " ++ toString s ++ "-" ++ toString (clampEnd e f.size) ++
          "/" ++ toString f.size)
        (clampEnd e f.size - s + 1) "bytes"
        ((body.drop s.toNat).take (clampEnd e f.size - s + 1).toNat) ∧
    parseRange "bytes=-5" 10 = some (0, 5) ∧
    parseRange "bytes=5-" 10 = some (5, 9) := by
  refine ⟨?_, by decide, by decide⟩
  unfold streamFile
  rw [hfind]
  simp only [resolveStream, hp, hb]
  rw [if_neg (by exact not_le.mpr hs)]
  rfl

/-- Closed instance of C2: the spec's `bytes=0-0` boundary case on a
4-byte object returns one byte with `Content-Range: bytes 0-0/4`. -/
theorem stream_range_206_witness :
    parseRange "bytes=0-0" 4 = some (0, 0) ∧
    (0 : Int) < 4 ∧
    streamFile
      [{ id := 1, filename := "a.bin", filePath := "uploads/a.bin",
         size := 4, mimeType := "application/octet-stream" }]
      [("uploads/a.bin", [10, 11, 12, 13])] 1 none (some "bytes=0-0") =
      .status206 "bytes 0-0/4" 1 "bytes" [10] := by
  refine ⟨by decide, by decide, ?_⟩
  have h := stream_range_206
    [{ id := 1, filename := "a.bin", filePath := "uploads/a.bin",
       size := 4, mimeType := "application/octet-stream" }]
    [("uploads/a.bin", [10, 11, 12, 13])] 1
    { id := 1, filename := "a.bin", filePath := "uploads/a.bin",
      size := 4, mimeType := "application/octet-stream" }
    "bytes=0-0" 0 0 [10, 11, 12, 13]
    (by decide) (by decide) (by decide) (by decide)
  exact h.1

/-- Counterexample to C3: on a 4-byte file, the unparsable header
`bytes=abc-def` is answered with the full-file 200 response, not with a
400 Validation error (the handler catches the `ValueError` and falls
through, `stream.py` lines 157-159). -/
theorem stream_invalid_range_not_400 :
    streamFile
      [{ id := 1, filename := "a.bin", filePath := "uploads/a.bin",
         size := 4, mimeType := "application/octet-stream" }]
      [("uploads/a.bin", [1, 2, 3, 4])] 1 none (some "bytes=abc-def") =
      .status200 4 "bytes" [1, 2, 3, 4] := by decide

/-- C3 as amended: a Range header that fails to parse is ignored — the
endpoint responds 200 with the full body, `Content-Length = size` and
`Accept-Ranges: bytes`, exactly as if no Range header had been sent. -/
theorem stream_invalid_range_full_response (db : List FileRec) (store : Store)
    (fid : Nat) (f : FileRec) (hdr : String) (body : List Nat)
    (hfind : db.find? (fun x => x.id == fid) = some f)
    (hp : parseRange hdr f.size = none)
    (hb : store.getBytes f.filePath = some body) :
    streamFile db store fid none (some hdr) =
      .status200 f.size "bytes" body := by
  unfold streamFile
  rw [hfind]
  simp only [resolveStream, hp, hb]
  rfl

/-- Closed instance of the amended C3. -/
theorem stream_invalid_range_full_response_witness :
    parseRange "bytes=abc-def" 4 = none ∧
    streamFile
      [{ id := 7, filename := "b.bin", filePath := "uploads/b.bin",
         size := 4, mimeType := "application/octet-stream" }]
      [("uploads/b.bin", [5, 6, 7, 8])] 7 none (some "bytes=abc-def") =
      .status200 4 "bytes" [5, 6, 7, 8] := by
  refine ⟨by decide, ?_⟩
  exact stream_invalid_range_full_response _ _ 7
    { id := 7, filename := "b.bin", filePath := "uploads/b.bin",
      size := 4, mimeType := "application/octet-stream" }
    "bytes=abc-def" [5, 6, 7, 8] (by decide) (by decide) (by decide)

/-- C10: when the requested quality is present in `transcoded_variants`
but the variant object is missing from the store (stat misses), the
endpoint silently streams the original object with the original's
recorded size. -/
theorem stream_variant_missing_fallback (db : List FileRec) (store : Store)
    (fid : Nat) (f : FileRec) (q : Nat) (vpath : String) (body : List Nat)
    (hq : q ≠ 0)
    (hfind : db.find? (fun x => x.id == fid) = some f)
    (hvar : f.transcodedVariants.lookup (toString q) = some vpath)
    (hmiss : store.stat vpath = none)
    (horig : store.getBytes f.filePath = some body) :
    streamFile db store fid (some q) none =
      .status200 f.size "bytes" body := by
  have hne : f.transcodedVariants.isEmpty = false := by
    cases h : f.transcodedVariants with
    | nil => rw [h] at hvar; simp [List.lookup] at hvar
    | cons a l => simp [List.isEmpty]
  unfold streamFile
  rw [hfind]
  simp only [resolveStream, hne, hvar, hmiss, horig]
  simp [hq, horig]

/-- Closed instance of C10: quality 480 is recorded but its object is
absent; the original is streamed at its recorded size. -/
theorem stream_variant_missing_fallback_witness :
    ((480 : Nat) ≠ 0) ∧
    ([("480", "transcoded/3/v_480p.mp4")].lookup "480" =
      some "transcoded/3/v_480p.mp4") ∧
    Store.stat [("uploads/v.mp4", [9, 9, 9])] "transcoded/3/v_480p.mp4" = none ∧
    streamFile
      [{ id := 3, filename := "v.mp4", filePath := "uploads/v.mp4",
         size := 3, mimeType := "video/mp4",
         transcodedVariants := [("480", "transcoded/3/v_480p.mp4")] }]
      [("uploads/v.mp4", [9, 9, 9])] 3 (some 480) none =
      .status200 3 "bytes" [9, 9, 9] := by
  refine ⟨by decide, by decide, by decide, ?_⟩
  exact stream_variant_missing_fallback _ _ 3
    { id := 3, filename := "v.mp4", filePath := "uploads/v.mp4",
      size := 3, mimeType := "video/mp4",
      transcodedVariants := [("480", "transcoded/3/v_480p.mp4")] }
    480 "transcoded/3/v_480p.mp4" [9, 9, 9]
    (by decide) (by decide) (by decide) (by decide) (by decide)

/-! ## Characterization of the job-creation loop -/

/-- The jobs inserted by one pass of the creation loop, with consecutive
ids starting at `jid0`. -/
def mkJobs (fileId : Nat) : Nat → List Nat → List Job
  | _, [] => []
  | jid0, q :: qs => mkJob fileId jid0 q :: mkJobs fileId (jid0 + 1) qs

/-- The `created_jobs` entries matching `mkJobs`. -/
def mkEntries : Nat → List Nat → List CreatedEntry
  | _, [] => []
  | jid0, q :: qs => ⟨jid0, q, "queued", taskIdFor jid0⟩ :: mkEntries (jid0 + 1) qs

lemma mkEntries_isEmpty (jid0 : Nat) (l : List Nat) :
    (mkEntries jid0 l).isEmpty = l.isEmpty := by
  cases l <;> simp [mkEntries]

lemma createJobsLoop_eq (file : FileRec) (fileId : Nat) (existing : List Nat)
    (qs : List Nat) :
    ∀ (c : Catalog) (created : List CreatedEntry),
    createJobsLoop file fileId existing c created qs =
      ({ c with
          jobs := c.jobs ++
            mkJobs fileId c.nextJobId
              (qs.filter (passesCreateFilter file existing)),
          nextJobId := c.nextJobId +
            (qs.filter (passesCreateFilter file existing)).length },
       created ++
         mkEntries c.nextJobId (qs.filter (passesCreateFilter file existing))) := by
  induction qs with
  | nil => intro c created; simp [createJobsLoop, mkJobs, mkEntries]
  | cons q qs ih =>
    intro c created
    by_cases h : passesCreateFilter file existing q
    · rw [createJobsLoop, if_pos h, ih]
      simp [List.filter_cons, h, mkJobs, mkEntries]
      omega
    · rw [createJobsLoop, if_neg h, ih]
      simp [List.filter_cons, h]

/-- Every job produced by the loop belongs to the requested file, starts
`pending`, and carries one of the surviving qualities. -/
lemma mem_mkJobs {fileId : Nat} {j : Job} :
    ∀ {n : Nat} {l : List Nat}, j ∈ mkJobs fileId n l →
      j.fileId = fileId ∧ j.status = "pending" ∧ j.targetQuality ∈ l := by
  intro n l
  induction l generalizing n with
  | nil => intro h; simp [mkJobs] at h
  | cons q qs ih =>
    intro h
    rw [mkJobs] at h
    rcases List.mem_cons.mp h with h | h
    · subst h; simp [mkJob]
    · obtain ⟨h1, h2, h3⟩ := ih h
      exact ⟨h1, h2, List.mem_cons_of_mem _ h3⟩

lemma mkJobs_map_quality (fileId : Nat) :
    ∀ (n : Nat) (l : List Nat),
      (mkJobs fileId n l).map (fun j => j.targetQuality) = l := by
  intro n l
  induction l generalizing n with
  | nil => simp [mkJobs]
  | cons q qs ih => simp [mkJobs, mkJob, ih]

lemma mkJobs_filter_active (fileId : Nat) :
    ∀ (n : Nat) (l : List Nat),
      (mkJobs fileId n l).filter
          (fun j => j.fileId == fileId && isActiveStatus j.status) =
        mkJobs fileId n l := by
  intro n l
  apply List.filter_eq_self.mpr
  intro j hj
  obtain ⟨h1, h2, _⟩ := mem_mkJobs hj
  simp [h1, h2, isActiveStatus]

lemma activeQualities_append (a b : List Job) (fileId : Nat) :
    activeQualities (a ++ b) fileId =
      activeQualities a fileId ++ activeQualities b fileId := by
  simp [activeQualities]

/-- `trigger_transcode` on a known video file with recognized qualities,
written through the loop characterization. -/
lemma trigger_transcode_eq (cat : Catalog) (fid : Nat) (qs : List Nat)
    (file : FileRec)
    (hfind : cat.files.find? (fun f => f.id == fid) = some file)
    (hvid : isVideo file = true)
    (hval : qs.find? (fun q => !(validQualities.contains q)) = none) :
    trigger_transcode cat fid qs =
      (if (qs.filter
            (passesCreateFilter file (activeQualities cat.jobs fid))).isEmpty then
        ({ cat with
            jobs := cat.jobs ++
              mkJobs fid cat.nextJobId
                (qs.filter
                  (passesCreateFilter file (activeQualities cat.jobs fid))),
            nextJobId := cat.nextJobId +
              (qs.filter
                (passesCreateFilter file (activeQualities cat.jobs fid))).length },
         .noJobs fid (activeQualities cat.jobs fid)
           (file.transcodedVariants.map (fun kv => kv.1)))
      else
        ({ cat with
            jobs := cat.jobs ++
              mkJobs fid cat.nextJobId
                (qs.filter
                  (passesCreateFilter file (activeQualities cat.jobs fid))),
            nextJobId := cat.nextJobId +
              (qs.filter
                (passesCreateFilter file (activeQualities cat.jobs fid))).length },
         .started fid
           (mkEntries cat.nextJobId
             (qs.filter
               (passesCreateFilter file (activeQualities cat.jobs fid)))))) := by
  unfold trigger_transcode
  rw [hfind]
  simp only [hvid, Bool.not_true, Bool.false_eq_true, if_false, hval,
    createJobsLoop_eq, List.nil_append, mkEntries_isEmpty]

/-! ## Claims about job creation -/

/-- `j` is an active job for the pair `(fid, q)`. -/
def isActivePair (fid q : Nat) (j : Job) : Bool :=
  j.fileId == fid && j.targetQuality == q && isActiveStatus j.status

/-- The spec invariant: for every `(file_id, quality)`, at most one job
with status `pending` or `processing`. -/
def AtMostOneActive (jobs : List Job) : Prop :=
  ∀ fid q, (jobs.filter (isActivePair fid q)).length ≤ 1

lemma mem_activeQualities {jobs : List Job} {fid q : Nat} :
    q ∈ activeQualities jobs fid ↔
      ∃ j ∈ jobs, j.fileId = fid ∧ isActiveStatus j.status = true ∧
        j.targetQuality = q := by
  constructor
  · intro h
    obtain ⟨j, hj, rfl⟩ := List.mem_map.mp h
    have hm := List.mem_filter.mp hj
    have hp := hm.2
    rw [Bool.and_eq_true, beq_iff_eq] at hp
    exact ⟨j, hm.1, hp.1, hp.2, rfl⟩
  · rintro ⟨j, hj, h1, h2, rfl⟩
    exact List.mem_map.mpr ⟨j, List.mem_filter.mpr ⟨hj, by simp [h1, h2]⟩, rfl⟩

lemma mkJobs_filter_pair_nil {fileId f0 q0 : Nat} {l : List Nat}
    (h : f0 ≠ fileId ∨ q0 ∉ l) (n : Nat) :
    (mkJobs fileId n l).filter (isActivePair f0 q0) = [] := by
  rw [List.filter_eq_nil]
  intro j hj
  obtain ⟨h1, _, h3⟩ := mem_mkJobs hj
  rcases h with h | h
  · simp [isActivePair, h1, Ne.symm h]
  · have : j.targetQuality ≠ q0 := fun he => h (he ▸ h3)
    simp [isActivePair, this]

lemma mkJobs_filter_pair_le_one {l : List Nat} (hnd : l.Nodup)
    (fileId f0 q0 : Nat) :
    ∀ n, ((mkJobs fileId n l).filter (isActivePair f0 q0)).length ≤ 1 := by
  induction l with
  | nil => intro n; simp [mkJobs]
  | cons q qs ih =>
    intro n
    rw [mkJobs, List.filter_cons]
    by_cases hq : isActivePair f0 q0 (mkJob fileId n q)
    · have hq0 : q0 = q := by
        have := hq
        simp only [isActivePair, mkJob, Bool.and_eq_true, beq_iff_eq] at this
        exact (this.1.2).symm
      have hrest : (mkJobs fileId (n + 1) qs).filter (isActivePair f0 q0) = [] :=
        mkJobs_filter_pair_nil
          (Or.inr (hq0 ▸ (List.nodup_cons.mp hnd).1)) (n + 1)
      simp [hq, hrest]
    · simp only [hq, if_false, Bool.false_eq_true]
      exact ih (List.nodup_cons.mp hnd).2 n.succ

/-- The updated catalog produced by a validated `trigger_transcode`
call. -/
lemma trigger_transcode_fst (cat : Catalog) (fid : Nat) (qs : List Nat)
    (file : FileRec)
    (hfind : cat.files.find? (fun f => f.id == fid) = some file)
    (hvid : isVideo file = true)
    (hval : qs.find? (fun q => !(validQualities.contains q)) = none) :
    (trigger_transcode cat fid qs).1 =
      { cat with
          jobs := cat.jobs ++
            mkJobs fid cat.nextJobId
              (qs.filter (passesCreateFilter file (activeQualities cat.jobs fid))),
          nextJobId := cat.nextJobId +
            (qs.filter
              (passesCreateFilter file (activeQualities cat.jobs fid))).length } := by
  rw [trigger_transcode_eq cat fid qs file hfind hvid hval]
  split <;> rfl

/-- Counterexample to C5: a request with the duplicated quality list
`[480, 480]` against a fresh video file creates two active jobs for the
pair `(1, 480)` in one call — `existing_qualities` is computed once,
before the loop (`transcode.py` lines 79-95), so the second copy of the
quality is not filtered out. -/
theorem trigger_duplicate_qualities_counterexample :
    ((trigger_transcode
        { files := [{ id := 1, filename := "v.mp4",
                      filePath := "uploads/v.mp4", size := 100,
                      mimeType := "video/mp4" }],
          jobs := [], nextFileId := 2, nextJobId := 1 }
        1 [480, 480]).1.jobs.filter (isActivePair 1 480)).length = 2 := by
  decide

/-- C5 as amended: provided the requested qualities are pairwise
distinct, a job is inserted only if the pair has no active job and the
file's `transcoded_variants` has no entry for the quality, and the
at-most-one-active-job-per-pair invariant is preserved.  (With duplicate
qualities in a single request the code inserts several active jobs for
the same pair, as the counterexample shows.) -/
theorem trigger_transcode_unique_active (cat : Catalog) (fid : Nat)
    (qs : List Nat) (file : FileRec)
    (hfind : cat.files.find? (fun f => f.id == fid) = some file)
    (hvid : isVideo file = true)
    (hval : qs.find? (fun q => !(validQualities.contains q)) = none)
    (hnd : qs.Nodup)
    (hinv : AtMostOneActive cat.jobs) :
    (∀ j ∈ (trigger_transcode cat fid qs).1.jobs, j ∉ cat.jobs →
        j.fileId = fid ∧ j.status = "pending" ∧
        (∀ j0 ∈ cat.jobs, j0.fileId = fid →
          j0.targetQuality = j.targetQuality →
          isActiveStatus j0.status = false) ∧
        (file.transcodedVariants.lookup (toString j.targetQuality)).isSome =
          false) ∧
    AtMostOneActive (trigger_transcode cat fid qs).1.jobs := by
  rw [trigger_transcode_fst cat fid qs file hfind hvid hval]
  set existing := activeQualities cat.jobs fid with hex
  set F := qs.filter (passesCreateFilter file existing) with hF
  have hpass : ∀ q ∈ F, passesCreateFilter file existing q = true := by
    intro q hq; exact List.of_mem_filter hq
  constructor
  · intro j hj hnotold
    simp only at hj
    rcases List.mem_append.mp hj with h | h
    · exact absurd h hnotold
    · obtain ⟨h1, h2, h3⟩ := mem_mkJobs h
      have hp := hpass _ h3
      rw [passesCreateFilter, Bool.and_eq_true] at hp
      have hnotex : j.targetQuality ∉ existing := by
        intro hmem
        have := hp.1
        rw [Bool.not_eq_true', ← Bool.not_eq_true] at this
        exact this (by
          simp only [List.contains, List.elem_iff]
          exact hmem)
      refine ⟨h1, h2, ?_, ?_⟩
      · intro j0 hj0 hfid0 hq0
        by_contra hact
        rw [Bool.not_eq_false] at hact
        exact hnotex (hex ▸ mem_activeQualities.mpr ⟨j0, hj0, hfid0, hact, hq0⟩)
      · have h5 := hp.2
        rw [Bool.not_eq_true'] at h5
        cases hv : file.transcodedVariants with
        | nil => simp [List.lookup]
        | cons a l => rw [hv] at h5; simpa using h5
  · intro f0 q0
    simp only [List.filter_append, List.length_append]
    by_cases hnew : (mkJobs fid cat.nextJobId F).filter (isActivePair f0 q0) = []
    · simp [hnew]; exact hinv f0 q0
    · obtain ⟨j, hj⟩ := List.exists_mem_of_ne_nil _ hnew
      have hm := List.mem_filter.mp hj
      obtain ⟨h1, _, h3⟩ := mem_mkJobs hm.1
      have hpair := hm.2
      rw [isActivePair, Bool.and_eq_true, Bool.and_eq_true, beq_iff_eq,
        beq_iff_eq] at hpair
      obtain ⟨⟨hfid0, hqual⟩, _⟩ := hpair
      have hq0F : q0 ∈ F := hqual ▸ h3
      have hp := hpass _ hq0F
      rw [passesCreateFilter, Bool.and_eq_true] at hp
      have hnotex : q0 ∉ existing := by
        intro hmem
        have := hp.1
        rw [Bool.not_eq_true', ← Bool.not_eq_true] at this
        exact this (by
          simp only [List.contains, List.elem_iff]
          exact hmem)
      have hold : cat.jobs.filter (isActivePair f0 q0) = [] := by
        rw [List.filter_eq_nil]
        intro j0 hj0
        intro hpair0
        rw [isActivePair, Bool.and_eq_true, Bool.and_eq_true, beq_iff_eq,
          beq_iff_eq] at hpair0
        obtain ⟨⟨ha, hb⟩, hc⟩ := hpair0
        exact hnotex
          (hex ▸ mem_activeQualities.mpr
            ⟨j0, hj0, by rw [ha, ← hfid0]; exact h1, hc, hb⟩)
      rw [hold]
      simp only [List.length_nil, Nat.zero_add]
      exact mkJobs_filter_pair_le_one (hnd.filter _) fid f0 q0 cat.nextJobId

/-- Closed instance of the amended C5: a fresh video file, request
`[480, 720]`. -/
theorem trigger_transcode_unique_active_witness :
    isVideo { id := 1, filename := "v.mp4", filePath := "uploads/v.mp4",
              size := 100, mimeType := "video/mp4" } = true ∧
    ([480, 720] : List Nat).Nodup ∧
    AtMostOneActive
      (trigger_transcode
        { files := [{ id := 1, filename := "v.mp4",
                      filePath := "uploads/v.mp4", size := 100,
                      mimeType := "video/mp4" }],
          jobs := [], nextFileId := 2, nextJobId := 1 }
        1 [480, 720]).1.jobs := by
  refine ⟨by decide, by decide, ?_⟩
  exact (trigger_transcode_unique_active _ 1 [480, 720]
    { id := 1, filename := "v.mp4", filePath := "uploads/v.mp4",
      size := 100, mimeType := "video/mp4" }
    (by decide) (by decide) (by decide) (by decide)
    (fun fid q => by simp)).2

/-! ## Claim C4: the transcode response shapes -/

/-- Counterexample to C4: the response never contains a `skipped` list.
A first submission returns the created-jobs object; an identical second
submission, with the first jobs still pending, returns the aggregate
no-new-jobs object (`message`/`reason`/`file_id`/`existing_qualities`/
`transcoded_qualities`, `transcode.py` lines 126-133) with no per-quality
`skipped` entries; and a request for an already-published quality returns
the same aggregate object, not `skipped:[{quality, reason}]`. -/
theorem transcode_no_skipped_list_counterexample :
    (trigger_transcode
        { files := [{ id := 1, filename := "v.mp4",
                      filePath := "uploads/v.mp4", size := 100,
                      mimeType := "video/mp4" }],
          jobs := [], nextFileId := 2, nextJobId := 1 }
        1 [480]).2 = .started 1 [⟨1, 480, "queued", "task-1"⟩] ∧
    (trigger_transcode
        (trigger_transcode
          { files := [{ id := 1, filename := "v.mp4",
                        filePath := "uploads/v.mp4", size := 100,
                        mimeType := "video/mp4" }],
            jobs := [], nextFileId := 2, nextJobId := 1 }
          1 [480]).1
        1 [480]).2 = .noJobs 1 [480] [] ∧
    (trigger_transcode
        { files := [{ id := 2, filename := "w.mp4",
                      filePath := "uploads/w.mp4", size := 100,
                      mimeType := "video/mp4",
                      transcodedVariants :=
                        [("480", "transcoded/2/w_480p.mp4")] }],
          jobs := [], nextFileId := 3, nextJobId := 1 }
        2 [480]).2 = .noJobs 2 [] ["480"] := by
  refine ⟨by decide, by decide, by decide⟩

/-- C4 as amended: a successful `POST /transcode` that creates at least
one job returns the created-jobs object, whose entries carry `job_id`,
`quality`, status `"queued"` and the Celery task id; when nothing is
created it returns a single aggregate object carrying
`existing_qualities` and `transcoded_qualities` instead of a per-quality
`skipped` list.  Submitting the same `(file_id, qualities)` again while
the first jobs are active yields the aggregate object with exactly those
qualities as `existing_qualities`; after a quality has a published
variant, requesting it again also yields the aggregate object, with that
quality among `transcoded_qualities` and no job created. -/
theorem transcode_resubmission (cat : Catalog) (fid : Nat) (qs : List Nat)
    (file : FileRec)
    (hfind : cat.files.find? (fun f => f.id == fid) = some file)
    (hvid : isVideo file = true)
    (hval : qs.find? (fun q => !(validQualities.contains q)) = none)
    (hne : qs ≠ [])
    (hnoactive : ∀ j ∈ cat.jobs, j.fileId = fid → isActiveStatus j.status = false)
    (hnovar : file.transcodedVariants = []) :
    (trigger_transcode cat fid qs).2 =
      .started fid (mkEntries cat.nextJobId qs) ∧
    (trigger_transcode (trigger_transcode cat fid qs).1 fid qs).2 =
      .noJobs fid qs [] ∧
    (∀ (cat2 : Catalog) (fid2 : Nat) (f2 : FileRec) (q2 : Nat),
      cat2.files.find? (fun f => f.id == fid2) = some f2 →
      isVideo f2 = true →
      validQualities.contains q2 = true →
      (f2.transcodedVariants.lookup (toString q2)).isSome = true →
      (∀ j ∈ cat2.jobs, j.fileId = fid2 → isActiveStatus j.status = false) →
      trigger_transcode cat2 fid2 [q2] =
        (cat2, .noJobs fid2 []
          (f2.transcodedVariants.map (fun kv => kv.1)))) := by
  have hactive_nil : ∀ (jobs : List Job) (fid0 : Nat),
      (∀ j ∈ jobs, j.fileId = fid0 → isActiveStatus j.status = false) →
      activeQualities jobs fid0 = [] := by
    intro jobs fid0 hno
    rw [activeQualities, List.map_eq_nil, List.filter_eq_nil]
    intro j hj hp
    rw [Bool.and_eq_true, beq_iff_eq] at hp
    rw [hno j hj hp.1] at hp
    exact Bool.false_ne_true hp.2
  have hex1 : activeQualities cat.jobs fid = [] := hactive_nil _ _ hnoactive
  have hF1 : qs.filter (passesCreateFilter file []) = qs := by
    apply List.filter_eq_self.mpr
    intro q _
    simp [passesCreateFilter, hnovar, List.contains]
  refine ⟨?_, ?_, ?_⟩
  · rw [trigger_transcode_eq cat fid qs file hfind hvid hval, hex1, hF1]
    have : qs.isEmpty = false := by
      cases qs with
      | nil => exact absurd rfl hne
      | cons a l => rfl
    simp [this]
  · have hfst := trigger_transcode_fst cat fid qs file hfind hvid hval
    rw [hex1, hF1] at hfst
    have hfind2 : (trigger_transcode cat fid qs).1.files.find?
        (fun f => f.id == fid) = some file := by
      rw [hfst]; exact hfind
    have hex2 : activeQualities (trigger_transcode cat fid qs).1.jobs fid = qs := by
      rw [hfst]
      show activeQualities (cat.jobs ++ mkJobs fid cat.nextJobId qs) fid = qs
      rw [activeQualities_append, hex1, List.nil_append, activeQualities,
        mkJobs_filter_active, mkJobs_map_quality]
    have hF2 : qs.filter (passesCreateFilter file qs) = [] := by
      rw [List.filter_eq_nil]
      intro q hq
      simp [passesCreateFilter, List.contains, List.elem_iff, hq]
    rw [trigger_transcode_eq (trigger_transcode cat fid qs).1 fid qs file
      hfind2 hvid hval, hex2, hF2, hnovar]
    rfl
  · intro cat2 fid2 f2 q2 hfind2 hvid2 hq2 hsome2 hnoact2
    have hex2 : activeQualities cat2.jobs fid2 = [] := hactive_nil _ _ hnoact2
    have hmem2 : q2 ∈ validQualities := by
      simpa [List.contains, List.elem_iff] using hq2
    have hval2 : ([q2].find? (fun q => !(validQualities.contains q))) = none := by
      simp [List.find?, List.contains, List.elem_iff, hmem2]
    have hF2 : [q2].filter (passesCreateFilter f2 []) = [] := by
      have hvne : f2.transcodedVariants.isEmpty = false := by
        cases hv : f2.transcodedVariants with
        | nil => rw [hv] at hsome2; simp [List.lookup] at hsome2
        | cons a l => rfl
      simp [List.filter, passesCreateFilter, hvne, hsome2]
    rw [trigger_transcode_eq cat2 fid2 [q2] f2 hfind2 hvid2 hval2, hex2, hF2]
    simp [mkJobs]

/-- Closed instance of the amended C4. -/
theorem transcode_resubmission_witness :
    ([480, 720] : List Nat) ≠ [] ∧
    (trigger_transcode
        { files := [{ id := 1, filename := "v.mp4",
                      filePath := "uploads/v.mp4", size := 100,
                      mimeType := "video/mp4" }],
          jobs := [], nextFileId := 2, nextJobId := 1 }
        1 [480, 720]).2 =
      .started 1 (mkEntries 1 [480, 720]) ∧
    (trigger_transcode
        (trigger_transcode
          { files := [{ id := 1, filename := "v.mp4",
                        filePath := "uploads/v.mp4", size := 100,
                        mimeType := "video/mp4" }],
            jobs := [], nextFileId := 2, nextJobId := 1 }
          1 [480, 720]).1
        1 [480, 720]).2 = .noJobs 1 [480, 720] [] := by
  have h := transcode_resubmission
    { files := [{ id := 1, filename := "v.mp4",
                  filePath := "uploads/v.mp4", size := 100,
                  mimeType := "video/mp4" }],
      jobs := [], nextFileId := 2, nextJobId := 1 }
    1 [480, 720]
    { id := 1, filename := "v.mp4", filePath := "uploads/v.mp4",
      size := 100, mimeType := "video/mp4" }
    (by decide) (by decide) (by decide) (by decide)
    (fun j hj => by simp at hj) (by decide)
  exact ⟨by decide, h.1, h.2.1⟩

/-! ## Claims about cancellation and the worker -/

/-- Updating the row found by `find?` through an id-preserving patch
moves the patch through the lookup. -/
lemma find?_map_update {l : List Job} {jobId : Nat} {job : Job}
    (g : Job → Job) (hid : ∀ j, (g j).id = j.id)
    (hfind : l.find? (fun j => j.id == jobId) = some job) :
    (l.map (fun j => if j.id == jobId then g j else j)).find?
        (fun j => j.id == jobId) = some (g job) := by
  induction l with
  | nil => simp at hfind
  | cons a l ih =>
    by_cases h : (a.id == jobId) = true
    · have ha : a = job := Option.some.inj (by simpa [List.find?, h] using hfind)
      subst ha
      simp [List.find?, hid, h]
    · have h' : (a.id == jobId) = false := by simpa using h
      simp only [List.find?, h'] at hfind
      simpa [List.find?, h', hid] using ih hfind

/-- Counterexample to C6: a job that is already `cancelled` (terminal) is
not rejected with 400 — `cancel_job` only rejects `completed` and
`failed` (`transcode.py` line 263).  The call answers 200/ok and mutates
the row (`completed_at` is overwritten from 5 to 10). -/
theorem cancel_cancelled_job_counterexample :
    (cancel_job
        { files := [],
          jobs := [{ id := 1, fileId := 1, targetQuality := 480,
                     status := "cancelled",
                     errorMessage := some "Cancelled by user",
                     completedAt := some 5 }],
          nextFileId := 1, nextJobId := 2 }
        1 10).2 = .ok 1 ∧
    (cancel_job
        { files := [],
          jobs := [{ id := 1, fileId := 1, targetQuality := 480,
                     status := "cancelled",
                     errorMessage := some "Cancelled by user",
                     completedAt := some 5 }],
          nextFileId := 1, nextJobId := 2 }
        1 10).1 ≠
      { files := [],
        jobs := [{ id := 1, fileId := 1, targetQuality := 480,
                   status := "cancelled",
                   errorMessage := some "Cancelled by user",
                   completedAt := some 5 }],
        nextFileId := 1, nextJobId := 2 } := by
  refine ⟨by decide, by decide⟩

/-- C6 as amended: `DELETE /transcode/job/{id}` returns 400 and leaves
the catalog unchanged only for `completed` and `failed` jobs; every other
found job — `pending`, `processing`, and also an already-`cancelled` one —
is (re-)patched to `cancelled` with `error_message` and a fresh
`completed_at`, and answered 200. -/
theorem cancel_job_cases (cat : Catalog) (jobId now : Nat) (job : Job)
    (hfind : cat.jobs.find? (fun j => j.id == jobId) = some job) :
    (isRejectedForCancel job.status = true →
      cancel_job cat jobId now = (cat, .badRequest "Cannot cancel job")) ∧
    (isRejectedForCancel job.status = false →
      (cancel_job cat jobId now).2 = .ok jobId ∧
      ((cancel_job cat jobId now).1.jobs.find? (fun j => j.id == jobId)) =
        some (cancelPatch job now) ∧
      (cancel_job cat jobId now).1.files = cat.files ∧
      ∀ j ∈ cat.jobs, (j.id == jobId) = false →
        j ∈ (cancel_job cat jobId now).1.jobs) := by
  constructor
  · intro hrej
    unfold cancel_job
    simp only [hfind]
    rw [if_pos hrej]
  · intro hacc
    have hc : cancel_job cat jobId now =
        ({ cat with jobs := cat.jobs.map (fun j =>
            if j.id == jobId then cancelPatch j now else j) },
         .ok jobId) := by
      unfold cancel_job
      simp only [hfind]
      rw [if_neg (by simp [hacc])]
    refine ⟨by rw [hc], ?_, by rw [hc], ?_⟩
    · rw [hc]
      exact find?_map_update _ (fun j => rfl) hfind
    · intro j hj hne
      rw [hc]
      have he : (fun j => if j.id == jobId then cancelPatch j now else j) j = j := by
        simp [hne]
      exact he ▸ List.mem_map_of_mem _ hj

/-- Closed instance of the amended C6 on a `processing` job. -/
theorem cancel_job_cases_witness :
    (([{ id := 4, fileId := 2, targetQuality := 720,
         status := "processing" }] : List Job).find? (fun j => j.id == 4) =
      some { id := 4, fileId := 2, targetQuality := 720,
             status := "processing" }) ∧
    (cancel_job
        { files := [], jobs := [{ id := 4, fileId := 2, targetQuality := 720,
                                  status := "processing" }],
          nextFileId := 1, nextJobId := 5 } 4 9).2 = .ok 4 := by
  refine ⟨by decide, ?_⟩
  exact ((cancel_job_cases
    { files := [], jobs := [{ id := 4, fileId := 2, targetQuality := 720,
                              status := "processing" }],
      nextFileId := 1, nextJobId := 5 } 4 9
    { id := 4, fileId := 2, targetQuality := 720, status := "processing" }
    (by decide)).2 (by decide)).1

/-- Counterexample to C7: the worker's first phase has no terminal check
and no compare-and-set — a job that was already `cancelled` while queued
is moved straight back to `processing` (`worker.py` lines 60-64). -/
theorem worker_moves_cancelled_to_processing :
    ((transcode_video_task_begin
        { files := [{ id := 1, filename := "v.mp4",
                      filePath := "uploads/v.mp4", size := 100,
                      mimeType := "video/mp4" }],
          jobs := [{ id := 1, fileId := 1, targetQuality := 480,
                     status := "cancelled",
                     errorMessage := some "Cancelled by user",
                     completedAt := some 5 }],
          nextFileId := 2, nextJobId := 2 }
        1 1 "task-9" 20).1.jobs.find? (fun j => j.id == 1)).map
      (fun j => j.status) = some "processing" := by decide

/-- C7 as amended: when the worker consumes a task whose job and file
rows both exist, it unconditionally transitions the job to `processing`,
recording `started_at` and the task id, whatever the previous status was
(including terminal ones); there is no compare-and-set from `pending`. -/
theorem worker_begin_unconditional (cat : Catalog) (jobId fileId : Nat)
    (taskId : String) (now : Nat) (job : Job) (file : FileRec)
    (hj : cat.jobs.find? (fun j => j.id == jobId) = some job)
    (hf : cat.files.find? (fun f => f.id == fileId) = some file) :
    (transcode_video_task_begin cat jobId fileId taskId now).2 = true ∧
    ((transcode_video_task_begin cat jobId fileId taskId now).1.jobs.find?
        (fun j => j.id == jobId)) =
      some (processingPatch job taskId now) := by
  unfold transcode_video_task_begin
  simp only [hj, hf]
  exact ⟨trivial, find?_map_update _ (fun j => rfl) hj⟩

/-- Closed instance of the amended C7: the job starts `cancelled` and
ends `processing`. -/
theorem worker_begin_unconditional_witness :
    (([{ id := 1, fileId := 1, targetQuality := 480, status := "cancelled",
         errorMessage := some "Cancelled by user",
         completedAt := some 5 }] : List Job).find? (fun j => j.id == 1) =
      some { id := 1, fileId := 1, targetQuality := 480,
             status := "cancelled",
             errorMessage := some "Cancelled by user",
             completedAt := some 5 }) ∧
    ((transcode_video_task_begin
        { files := [{ id := 1, filename := "v.mp4",
                      filePath := "uploads/v.mp4", size := 100,
                      mimeType := "video/mp4" }],
          jobs := [{ id := 1, fileId := 1, targetQuality := 480,
                     status := "cancelled",
                     errorMessage := some "Cancelled by user",
                     completedAt := some 5 }],
          nextFileId := 2, nextJobId := 2 }
        1 1 "task-9" 20).1.jobs.find? (fun j => j.id == 1)) =
      some (processingPatch
        { id := 1, fileId := 1, targetQuality := 480,
          status := "cancelled",
          errorMessage := some "Cancelled by user",
          completedAt := some 5 } "task-9" 20) := by
  refine ⟨by decide, ?_⟩
  exact (worker_begin_unconditional
    { files := [{ id := 1, filename := "v.mp4",
                  filePath := "uploads/v.mp4", size := 100,
                  mimeType := "video/mp4" }],
      jobs := [{ id := 1, fileId := 1, targetQuality := 480,
                 status := "cancelled",
                 errorMessage := some "Cancelled by user",
                 completedAt := some 5 }],
      nextFileId := 2, nextJobId := 2 }
    1 1 "task-9" 20
    { id := 1, fileId := 1, targetQuality := 480, status := "cancelled",
      errorMessage := some "Cancelled by user", completedAt := some 5 }
    { id := 1, filename := "v.mp4", filePath := "uploads/v.mp4",
      size := 100, mimeType := "video/mp4" }
    (by decide) (by decide)).2

/-! ## Claims about deletion and upload -/

lemma Store.getBytes_erase_self (store : Store) (key : String) :
    (store.erase key).getBytes key = none := by
  induction store with
  | nil => rfl
  | cons kv store ih =>
    obtain ⟨k0, v0⟩ := kv
    rw [Store.erase, List.filter_cons]
    by_cases h : k0 = key
    · have hb : ((k0, v0).1 != key) = false := by simp [bne, h]
      simp only [hb, Bool.false_eq_true, if_false]
      exact ih
    · have hb : ((k0, v0).1 != key) = true := by simp [bne, h]
      simp only [hb, if_true]
      show List.lookup key ((k0, v0) :: Store.erase store key) = none
      have hne : (key == k0) = false := by simp [Ne.symm h]
      simp only [List.lookup, hne]
      exact ih

lemma Store.getBytes_erase_ne (store : Store) (key k : String) (h : k ≠ key) :
    (store.erase key).getBytes k = store.getBytes k := by
  induction store with
  | nil => rfl
  | cons kv store ih =>
    obtain ⟨k0, v0⟩ := kv
    rw [Store.erase, List.filter_cons]
    by_cases hk : k0 = key
    · have hb : ((k0, v0).1 != key) = false := by simp [bne, hk]
      simp only [hb, Bool.false_eq_true, if_false]
      have hne : (k == k0) = false := by subst hk; simp [h]
      show (Store.erase store key).getBytes k = List.lookup k ((k0, v0) :: store)
      simp only [List.lookup, hne]
      exact ih
    · have hb : ((k0, v0).1 != key) = true := by simp [bne, hk]
      simp only [hb, if_true]
      show List.lookup k ((k0, v0) :: Store.erase store key) =
        List.lookup k ((k0, v0) :: store)
      simp only [List.lookup]
      cases he : (k == k0) with
      | true => rfl
      | false => exact ih

/-- Counterexample to C8: deletion does not cascade.  On a file with a
stored variant object and no job rows, the delete succeeds but the
variant object referenced by `transcoded_variants` is still in the
store.  On a file with a pending (non-terminal) job, the database commit
fails on the non-nullable `transcoding_jobs.file_id` foreign key, so
`delete_file` returns `false` (the endpoint answers 404) while the
`files` row and the job survive unchanged — the non-terminal job is
neither cancelled nor removed — and the original object has already been
deleted from the store. -/
theorem delete_file_leaves_variants_and_jobs :
    (delete_file
        { files := [{ id := 1, filename := "v.mp4",
                      filePath := "uploads/v.mp4", size := 2,
                      mimeType := "video/mp4",
                      transcodedVariants :=
                        [("480", "transcoded/1/v_480p.mp4")] }],
          jobs := [], nextFileId := 2, nextJobId := 1 }
        [("uploads/v.mp4", [1, 2]), ("transcoded/1/v_480p.mp4", [7, 7])]
        1).2.2 = true ∧
    ((delete_file
        { files := [{ id := 1, filename := "v.mp4",
                      filePath := "uploads/v.mp4", size := 2,
                      mimeType := "video/mp4",
                      transcodedVariants :=
                        [("480", "transcoded/1/v_480p.mp4")] }],
          jobs := [], nextFileId := 2, nextJobId := 1 }
        [("uploads/v.mp4", [1, 2]), ("transcoded/1/v_480p.mp4", [7, 7])]
        1).2.1).getBytes "transcoded/1/v_480p.mp4" = some [7, 7] ∧
    (delete_file
        { files := [{ id := 1, filename := "v.mp4",
                      filePath := "uploads/v.mp4", size := 2,
                      mimeType := "video/mp4",
                      transcodedVariants :=
                        [("480", "transcoded/1/v_480p.mp4")] }],
          jobs := [{ id := 1, fileId := 1, targetQuality := 720,
                     status := "pending" }],
          nextFileId := 2, nextJobId := 2 }
        [("uploads/v.mp4", [1, 2]), ("transcoded/1/v_480p.mp4", [7, 7])]
        1).2.2 = false ∧
    (delete_file
        { files := [{ id := 1, filename := "v.mp4",
                      filePath := "uploads/v.mp4", size := 2,
                      mimeType := "video/mp4",
                      transcodedVariants :=
                        [("480", "transcoded/1/v_480p.mp4")] }],
          jobs := [{ id := 1, fileId := 1, targetQuality := 720,
                     status := "pending" }],
          nextFileId := 2, nextJobId := 2 }
        [("uploads/v.mp4", [1, 2]), ("transcoded/1/v_480p.mp4", [7, 7])]
        1).1 =
      { files := [{ id := 1, filename := "v.mp4",
                    filePath := "uploads/v.mp4", size := 2,
                    mimeType := "video/mp4",
                    transcodedVariants :=
                      [("480", "transcoded/1/v_480p.mp4")] }],
        jobs := [{ id := 1, fileId := 1, targetQuality := 720,
                   status := "pending" }],
        nextFileId := 2, nextJobId := 2 } ∧
    ((delete_file
        { files := [{ id := 1, filename := "v.mp4",
                      filePath := "uploads/v.mp4", size := 2,
                      mimeType := "video/mp4",
                      transcodedVariants :=
                        [("480", "transcoded/1/v_480p.mp4")] }],
          jobs := [{ id := 1, fileId := 1, targetQuality := 720,
                     status := "pending" }],
          nextFileId := 2, nextJobId := 2 }
        [("uploads/v.mp4", [1, 2]), ("transcoded/1/v_480p.mp4", [7, 7])]
        1).2.1).getBytes "uploads/v.mp4" = none := by
  refine ⟨by decide, by decide, by decide, by decide, by decide⟩

/-- C8 as amended: `DELETE /files/{id}` on an existing file first
deletes the original object (best-effort).  If no job row references the
file, the `files` row is then removed and the call succeeds — but the
job table is untouched and every object other than the original, in
particular every variant object, is still in the store.  If any job row
references the file (non-terminal or terminal), the database commit
fails on the non-nullable `transcoding_jobs.file_id` foreign key, the
transaction rolls back — the catalog, row and jobs included, is
unchanged — and the call reports failure (the endpoint answers 404),
with the original object already deleted and, again, every other object
left in the store. -/
theorem delete_file_scope (cat : Catalog) (store : Store) (fid : Nat)
    (f : FileRec)
    (hfind : cat.files.find? (fun g => g.id == fid) = some f) :
    ((cat.jobs.any (fun j => j.fileId == fid)) = false →
      (delete_file cat store fid).2.2 = true ∧
      (delete_file cat store fid).1.jobs = cat.jobs ∧
      (delete_file cat store fid).1.files =
        cat.files.filter (fun g => g.id != fid) ∧
      (delete_file cat store fid).2.1 = store.erase f.filePath ∧
      ∀ k, k ≠ f.filePath →
        ((delete_file cat store fid).2.1).getBytes k = store.getBytes k) ∧
    ((cat.jobs.any (fun j => j.fileId == fid)) = true →
      (delete_file cat store fid).2.2 = false ∧
      (delete_file cat store fid).1 = cat ∧
      (delete_file cat store fid).2.1 = store.erase f.filePath ∧
      ∀ k, k ≠ f.filePath →
        ((delete_file cat store fid).2.1).getBytes k = store.getBytes k) := by
  constructor
  · intro hnojobs
    have hd : delete_file cat store fid =
        ({ cat with files := cat.files.filter (fun g => g.id != fid) },
         store.erase f.filePath, true) := by
      unfold delete_file
      simp [hfind, hnojobs]
    rw [hd]
    exact ⟨rfl, rfl, rfl, rfl, fun k hk => Store.getBytes_erase_ne _ _ _ hk⟩
  · intro hjobs
    have hd : delete_file cat store fid =
        (cat, store.erase f.filePath, false) := by
      unfold delete_file
      simp [hfind, hjobs]
    rw [hd]
    exact ⟨rfl, rfl, rfl, fun k hk => Store.getBytes_erase_ne _ _ _ hk⟩

/-- Closed instance of the amended C8, exercising both cases: the delete
succeeds on a jobs-free file and fails when a pending job references the
file. -/
theorem delete_file_scope_witness :
    (([{ id := 9, filename := "w.bin", filePath := "uploads/w.bin",
         size := 1, mimeType := "application/octet-stream" }] :
        List FileRec).find? (fun g => g.id == 9) =
      some { id := 9, filename := "w.bin", filePath := "uploads/w.bin",
             size := 1, mimeType := "application/octet-stream" }) ∧
    (delete_file
        { files := [{ id := 9, filename := "w.bin",
                      filePath := "uploads/w.bin", size := 1,
                      mimeType := "application/octet-stream" }],
          jobs := [], nextFileId := 10, nextJobId := 1 }
        [("uploads/w.bin", [3])] 9).2.2 = true ∧
    (delete_file
        { files := [{ id := 9, filename := "w.bin",
                      filePath := "uploads/w.bin", size := 1,
                      mimeType := "application/octet-stream" }],
          jobs := [{ id := 1, fileId := 9, targetQuality := 480,
                     status := "pending" }],
          nextFileId := 10, nextJobId := 2 }
        [("uploads/w.bin", [3])] 9).2.2 = false := by
  refine ⟨by decide, ?_, ?_⟩
  · exact ((delete_file_scope
      { files := [{ id := 9, filename := "w.bin", filePath := "uploads/w.bin",
                    size := 1, mimeType := "application/octet-stream" }],
        jobs := [], nextFileId := 10, nextJobId := 1 }
      [("uploads/w.bin", [3])] 9
      { id := 9, filename := "w.bin", filePath := "uploads/w.bin",
        size := 1, mimeType := "application/octet-stream" }
      (by decide)).1 (by decide)).1
  · exact ((delete_file_scope
      { files := [{ id := 9, filename := "w.bin", filePath := "uploads/w.bin",
                    size := 1, mimeType := "application/octet-stream" }],
        jobs := [{ id := 1, fileId := 9, targetQuality := 480,
                   status := "pending" }],
        nextFileId := 10, nextJobId := 2 }
      [("uploads/w.bin", [3])] 9
      { id := 9, filename := "w.bin", filePath := "uploads/w.bin",
        size := 1, mimeType := "application/octet-stream" }
      (by decide)).2 (by decide)).1

/-- C9: when the object-store PUT succeeds but the catalog insert fails,
`upload_file` deletes the stored object again, creates no `File` row
(the catalog is returned unchanged), leaves no object under the
generated key, and surfaces the error. -/
theorem upload_orphan_avoidance (cat : Catalog) (store : Store)
    (s3Key : String) (content : List Nat) (filename mimeType : String)
    (fileHash : Option String) :
    (upload_file cat store s3Key content filename mimeType fileHash
        false true).1 = cat ∧
    ((upload_file cat store s3Key content filename mimeType fileHash
        false true).2.1).getBytes s3Key = none ∧
    (upload_file cat store s3Key content filename mimeType fileHash
        false true).2.2 = .error "Failed to save file metadata" := by
  refine ⟨rfl, ?_, rfl⟩
  exact Store.getBytes_erase_self _ _


